import Mathlib

/-!
Shallow embedding of the Ascii-Me core module (src/Ascii_art/core.py) and
proofs about it.  Python floats are modelled as rationals, Python ints as
`Int`, Python strings as `String`.  A Python function that can raise is
modelled as returning an `Option` (with `none` for an uncaught exception
such as `KeyError`).
-/

attribute [local semireducible] Rat.mul Rat.inv Rat.add Rat.sub

/-- Python `int(x)` on a float/rational: truncation toward zero. -/
def pyint (q : ℚ) : ℤ := if q < 0 then -⌊-q⌋ else ⌊q⌋

/-- Python `round(x)` to an integer: round half to even (banker's rounding). -/
def pyround (q : ℚ) : ℤ :=
  if q - ⌊q⌋ < 1/2 then ⌊q⌋
  else if 1/2 < q - ⌊q⌋ then ⌊q⌋ + 1
  else if Even ⌊q⌋ then ⌊q⌋ else ⌊q⌋ + 1

/-- core.py line 29: `FRAME_DELAY = 0.06` (minimum delay between frames). -/
def FRAME_DELAY : ℚ := 6/100

/-- core.py line 32: `BG_COLOR = (255, 255, 255)`. -/
def BG_COLOR : ℤ × ℤ × ℤ := (255, 255, 255)

/-- core.py line 35: `BG_THRESHOLD = 50`. -/
def BG_THRESHOLD : ℤ := 50

/-- core.py line 38: `ASPECT_RATIO_FACTOR = 0.48`. -/
def ASPECT_RATIO_FACTOR : ℚ := 48/100

/-- A Python dict key as it occurs in this program: a string or an int.
Python dict lookup compares keys by equality, and an int key is never
equal to a str key. -/
abbrev PyKey := String ⊕ ℤ

/-- core.py lines 44-50: the dict `ASCII_CHARS` mapping style names to glyph
strings, insertion order preserved.  All four keys are strings. -/
def ASCII_CHARS : List (PyKey × String) :=
  [(Sum.inl "simple", " .:-=+*#%@"),
   (Sum.inl "extended",
     " .\x60\x27^\x22,:;Il!i><~+_-?][\x7d\x7b1)(|\\/tfjrxnuvczXYUJCLQ0OZmwqpdbkhao*#MW&8%B@$"),
   (Sum.inl "ultraextended",
     "  \x60^\x27.,:;Il!i~+-_?][\x7d\x7b1)(|\\/tfjrxnuvczXYUJCLQ0OZmwqpdbkhao*#MW&8%B@$@"),
   (Sum.inl "blocks", " ░▒▓█")]

/-- Python `d[k]` on a dict modelled as an association list: the value at the
first key equal to `k`, or `none` (a `KeyError`) when no key equals `k`. -/
def dict_get (d : List (PyKey × String)) (k : PyKey) : Option String :=
  (d.find? (fun e => decide (e.1 = k))).map Prod.snd

/-- core.py lines 52-73, `set_style`: returns the value the global
`ASCIICHARS` holds after the call.  `style_name in ASCII_CHARS` is membership
among the dict keys; on a miss the fallback is `ASCII_CHARS["simple"]`. -/
def set_style (style_name : String) : Option String :=
  if (dict_get ASCII_CHARS (Sum.inl style_name)).isSome then
    dict_get ASCII_CHARS (Sum.inl style_name)
  else
    dict_get ASCII_CHARS (Sum.inl "simple")

/-- A decoded pixel: a 3-tuple (RGB) or a 4-tuple (RGBA), channels 0-255. -/
inductive Pixel
  | rgb (r g b : ℤ)
  | rgba (r g b a : ℤ)
deriving DecidableEq

/-- core.py line 196: the returned f-string, i.e. the true-color foreground
escape ESC[38;2;R;G;Bm, then the glyph, then the reset escape ESC[0m. -/
def ansi_colored (r g b : ℤ) (char : String) : String :=
  "\x1b[38;2;" ++ toString r ++ ";" ++ toString g ++ ";" ++ toString b ++ "m"
    ++ char ++ "\x1b[0m"

/-- core.py lines 188-196, the opaque-pixel body of `pixel_to_ascii_color`:
brightness from the luminance formula, then
`char_idx = min(int(brightness * len(ASCII_CHARS) / 256), len(ASCII_CHARS) - 1)`
and `char = ASCII_CHARS[char_idx]`.  `ASCII_CHARS` here is the style DICT
(length 4, string keys), so the subscript with an int key is a dict lookup
that finds nothing. -/
def pixel_brightness_char (r g b : ℤ) : Option String :=
  let brightness : ℚ := 299/1000 * (r : ℚ) + 587/1000 * (g : ℚ) + 114/1000 * (b : ℚ)
  let char_idx : ℤ :=
    min (pyint (brightness * (ASCII_CHARS.length : ℚ) / 256)) ((ASCII_CHARS.length : ℤ) - 1)
  (dict_get ASCII_CHARS (Sum.inr char_idx)).map (fun char => ansi_colored r g b char)

/-- core.py lines 162-196, `pixel_to_ascii_color`: an RGBA pixel with
`a < 50` returns a bare space; otherwise the brightness body runs. -/
def pixel_to_ascii_color : Pixel → Option String
  | Pixel.rgba r g b a => if a < 50 then some " " else pixel_brightness_char r g b
  | Pixel.rgb r g b => pixel_brightness_char r g b

/-- Modelled from the spec: the intended mapper of section 4.4, which indexes
the ACTIVE style table (the glyph string that `set_style` stores in the
global `ASCIICHARS`, which the code's `pixel_to_ascii_color` never reads) by
`min(floor(brightness * len(table) / 256), len(table) - 1)`. -/
def pixel_char_intended (table : String) (r g b : ℤ) : Option String :=
  let brightness : ℚ := 299/1000 * (r : ℚ) + 587/1000 * (g : ℚ) + 114/1000 * (b : ℚ)
  let char_idx : ℤ :=
    min (pyint (brightness * (table.length : ℚ) / 256)) ((table.length : ℤ) - 1)
  (table.data.get? char_idx.toNat).map (fun c => ansi_colored r g b (String.singleton c))

/-- Modelled from the spec: section 4.4's mapper on a whole pixel, with the
alpha short-circuit of the code. -/
def pixel_to_ascii_color_intended (table : String) : Pixel → Option String
  | Pixel.rgba r g b a => if a < 50 then some " " else pixel_char_intended table r g b
  | Pixel.rgb r g b => pixel_char_intended table r g b

/-- core.py line 114: `target_width = min(width, max_width)` (first pass). -/
def scale_first_width (w mW : ℤ) : ℤ := min w mW

/-- core.py line 115: `aspect_ratio = height / width` (true float division). -/
def aspect_ratio (w h : ℤ) : ℚ := (h : ℚ) / (w : ℚ)

/-- core.py line 116:
`target_height = min(int(target_width * aspect_ratio * ASPECT_RATIO_FACTOR), max_height)`. -/
def scale_first_height (w h mW mH : ℤ) : ℤ :=
  min (pyint ((scale_first_width w mW : ℚ) * aspect_ratio w h * ASPECT_RATIO_FACTOR)) mH

/-- core.py lines 120-121: `new_height = min(max_height, height)` and
`target_width = min(int(new_height / (aspect_ratio * ASPECT_RATIO_FACTOR)), max_width)`. -/
def scale_second_width (w h mW mH : ℤ) : ℤ :=
  min (pyint ((min mH h : ℚ) / (aspect_ratio w h * ASPECT_RATIO_FACTOR))) mW

/-- core.py line 122: the recomputed
`target_height = min(int(target_width * aspect_ratio * ASPECT_RATIO_FACTOR), max_height)`
from the second-pass width. -/
def scale_second_height (w h mW mH : ℤ) : ℤ :=
  min (pyint ((scale_second_width w h mW mH : ℚ) * aspect_ratio w h * ASPECT_RATIO_FACTOR)) mH

/-- core.py lines 93-124, `scale_image`: the (width, height) the source image
is resized to.  The second pass runs exactly when the first-pass height left
vertical space unused. -/
def scale_image (w h mW mH : ℤ) : ℤ × ℤ :=
  if scale_first_height w h mW mH < mH then
    (scale_second_width w h mW mH, scale_second_height w h mW mH)
  else
    (scale_first_width w mW, scale_first_height w h mW mH)

/-- The second pass exactly as claim C5 (spec section 4.2 step 2) words it:
`targetWidth = min(round(targetHeight / (aspect*K)), maxWidth)` taking
`targetHeight` from the FIRST pass, then `targetHeight` recomputed from that
new width by the first-pass formula (which the spec writes with `round`). -/
def scale_image_claimC5 (w h mW mH : ℤ) : ℤ × ℤ :=
  if scale_first_height w h mW mH < mH then
    let tw2 : ℤ :=
      min (pyround ((scale_first_height w h mW mH : ℚ)
        / (aspect_ratio w h * ASPECT_RATIO_FACTOR))) mW
    (tw2, min (pyround ((tw2 : ℚ) * aspect_ratio w h * ASPECT_RATIO_FACTOR)) mH)
  else
    (scale_first_width w mW, scale_first_height w h mW mH)

/-- An RGBA pixel value as a 4-tuple of ints. -/
abbrev RGBA := ℤ × ℤ × ℤ × ℤ

/-- core.py line 144: `image.convert("RGBA")` per pixel — an RGB pixel gains
an opaque alpha of 255, an RGBA pixel is unchanged. -/
def convert_RGBA : Pixel → RGBA
  | Pixel.rgb r g b => (r, g, b, 255)
  | Pixel.rgba r g b a => (r, g, b, a)

/-- core.py line 154: the Manhattan distance
`abs(r - bg_color[0]) + abs(g - bg_color[1]) + abs(b - bg_color[2])`. -/
def manhattan_distance (r g b : ℤ) (bg : ℤ × ℤ × ℤ) : ℤ :=
  |r - bg.1| + |g - bg.2.1| + |b - bg.2.2|

/-- core.py lines 151-158: one pixel of the background-removal loop — within
the threshold the pixel becomes (0, 0, 0, 0), otherwise it is left as is. -/
def remove_background_pixel (bg : ℤ × ℤ × ℤ) (threshold : ℤ) (p : RGBA) : RGBA :=
  if manhattan_distance p.1 p.2.1 p.2.2.1 bg < threshold then (0, 0, 0, 0) else p

/-- core.py lines 126-160, `remove_background`: convert to RGBA, then visit
every pixel of every row and blank the ones near the background color.  The
image is modelled as its rows of pixels. -/
def remove_background (img : List (List Pixel)) (bg : ℤ × ℤ × ℤ) (threshold : ℤ) :
    List (List RGBA) :=
  img.map (fun row => row.map (fun p => remove_background_pixel bg threshold (convert_RGBA p)))

/-- core.py lines 289-291: the duration stored with one GIF frame —
`duration_ms = frame.info.get('duration', int(FRAME_DELAY * 1000))` then
`duration_sec = max(duration_ms / 1000.0, 0.06)`.  The metadata duration is
`none` when the frame has no duration entry. -/
def frame_duration_sec (meta : Option ℤ) : ℚ :=
  let duration_ms : ℤ := meta.getD (pyint (FRAME_DELAY * 1000))
  max ((duration_ms : ℚ) / 1000) (6/100)

/-- core.py lines 274-295: the list of durations `gif_to_ascii_frames` stores,
one per source frame, from each frame's metadata duration. -/
def gif_frame_durations (metas : List (Option ℤ)) : List ℚ :=
  metas.map frame_duration_sec

/-- A frame as stored by `gif_to_ascii_frames`: the composed glyph-art string
and its duration in seconds. -/
abbrev Frame := String × ℚ

/-- The glyph-art string shown at playback step `i`: the looping
`for frame, duration in frames` walks the list cyclically. -/
def frame_at (frames : List Frame) (i : ℕ) : String :=
  (frames.getD (i % frames.length) ("", 0)).1

/-- One observable event of the resize-aware Animation Player: the start of a
frame render, the end of that render, or the player returning control. -/
inductive PlayEvent
  | renderStart (s : String)
  | renderEnd (s : String)
  | ret
deriving DecidableEq

/-- The two render events of the frame shown at step `i`. -/
def render_pair (frames : List Frame) (i : ℕ) : List PlayEvent :=
  [PlayEvent.renderStart (frame_at frames i), PlayEvent.renderEnd (frame_at frames i)]

/-- Modelled from the spec: the resize-aware Animation Player (spec section
4.6; the function `animate_gif_with_resize` and the resize-signal machinery
imported by src/Ascii_art/__main__.py are absent from src, so the player that
consults `resizeSignal` is modelled from the spec's words).  At each frame
boundary `i` the player first checks the signal — `signal i` tells whether the
resize signal is set at that boundary; if set it clears it and returns
immediately, otherwise it renders the frame whole and moves on.  `fuel`
truncates the otherwise endless loop. -/
def player_trace (frames : List Frame) (signal : ℕ → Bool) : ℕ → ℕ → List PlayEvent
  | _, 0 => []
  | i, fuel + 1 =>
    if signal i then [PlayEvent.ret]
    else render_pair frames i ++ player_trace frames signal (i + 1) fuel

/-- One observable terminal side effect of `play_ascii_animation`: an
ordinary `print` write to stdout, the per-frame write (cursor-home escape
followed by the frame string, core.py line 356), or the `os.system` screen
clear of line 332. -/
inductive TermEvent
  | write (s : String)
  | frameWrite (s : String)
  | systemClearScreen
deriving DecidableEq

/-- core.py lines 329-332: the writes the body of the `try` makes before the
playback loop — hide the cursor, then clear the screen. -/
def play_prelude_events : List TermEvent :=
  [TermEvent.write "\x1b[?25l", TermEvent.systemClearScreen]

/-- core.py lines 327-359: the first `j` terminal events of the `try` body of
`play_ascii_animation`.  With an empty frame list the body stops after the
prelude (line 336 returns); otherwise the loop appends one frame write per
iteration, forever. -/
def play_body_events (frames : List Frame) (j : ℕ) : List TermEvent :=
  if frames.isEmpty then
    play_prelude_events.take j
  else
    (play_prelude_events ++
      (List.range (j - 2)).map (fun i => TermEvent.frameWrite ("\x1b[0;0H" ++ frame_at frames i))).take j

/-- core.py lines 361-365: the writes of the `except KeyboardInterrupt`
handler (each bare `print` appends a newline). -/
def keyboard_interrupt_events : List TermEvent :=
  [TermEvent.write "\x1b[?25h", TermEvent.write "\x1b[0m",
   TermEvent.write "\n\x1b[91mAnimación detenida\x1b[0m\n"]

/-- core.py lines 367-369: the single write of the `finally` block — show
cursor, reset attributes, clear screen, cursor home. -/
def finally_event : TermEvent :=
  TermEvent.write "\x1b[?25h\x1b[0m\x1b[2J\x1b[H"

/-- How an invocation of `play_ascii_animation` ends: the body returns
normally (only possible via the empty-frames return of line 336), a
`KeyboardInterrupt` arrives after `j` completed body events, or some other
exception terminates the loop after `j` completed body events. -/
inductive ExitPath
  | normalReturn
  | interrupted (j : ℕ)
  | otherException (j : ℕ)
deriving DecidableEq

/-- Which exits are reachable for a given frame list: a normal return needs
the empty-frames early return, and with an empty list the body has at most
its two prelude events during which an exception can arrive. -/
def ExitPath.valid (frames : List Frame) : ExitPath → Prop
  | ExitPath.normalReturn => frames = []
  | ExitPath.interrupted j => frames ≠ [] ∨ j ≤ 2
  | ExitPath.otherException j => frames ≠ [] ∨ j ≤ 2

instance (frames : List Frame) (e : ExitPath) : Decidable (e.valid frames) := by
  cases e <;> simp only [ExitPath.valid] <;> infer_instance

/-- core.py lines 301-369, `play_ascii_animation` as its full stream of
terminal events for one invocation: the `try` body's events, then the
`KeyboardInterrupt` handler's events when that is how the body ended, then —
on every path — the `finally` block's event. -/
def play_ascii_animation_events (frames : List Frame) : ExitPath → List TermEvent
  | ExitPath.normalReturn => play_body_events frames 2 ++ [finally_event]
  | ExitPath.interrupted j =>
      play_body_events frames j ++ keyboard_interrupt_events ++ [finally_event]
  | ExitPath.otherException j => play_body_events frames j ++ [finally_event]

/-- C1: `set_style` on an unknown name does fall back to the "simple" table
without raising, but the claim's second half fails on the code: a subsequent
`pixel_to_ascii_color` on an opaque pixel never reads the selected table —
line 193 subscripts the style dict `ASCII_CHARS` with the int `char_idx`
instead of indexing the selected glyph string `ASCIICHARS`, so the call
raises `KeyError` (here: returns `none`) instead of emitting any glyph. -/
theorem C1_mapper_never_uses_selected_table :
    set_style "no-such-style" = some " .:-=+*#%@" ∧
    pixel_to_ascii_color (Pixel.rgba 255 0 0 255) = none := by
  constructor <;> decide

theorem player_trace_step (frames : List Frame) (signal : ℕ → Bool) (i fuel : ℕ) :
    player_trace frames signal i (fuel + 1) =
      if signal i then [PlayEvent.ret]
      else render_pair frames i ++ player_trace frames signal (i + 1) fuel := rfl

theorem player_trace_signal_first (frames : List Frame) (signal : ℕ → Bool) :
    ∀ (k i fuel : ℕ), signal (i + k) = true → (∀ j, j < k → signal (i + j) = false) →
      k < fuel →
      player_trace frames signal i fuel =
        ((List.range k).map (fun j => i + j)).flatMap (render_pair frames) ++ [PlayEvent.ret] := by
  intro k
  induction k with
  | zero =>
    intro i fuel hsig _ hfuel
    cases fuel with
    | zero => omega
    | succ f =>
      simp only [Nat.add_zero] at hsig
      rw [player_trace_step, if_pos hsig]
      simp
  | succ k ih =>
    intro i fuel hsig hmin hfuel
    cases fuel with
    | zero => omega
    | succ f =>
      have h0 : signal i = false := by simpa using hmin 0 (Nat.succ_pos k)
      have hsig' : signal (i + 1 + k) = true := by
        have e : i + 1 + k = i + (k + 1) := by omega
        rw [e]; exact hsig
      have hmin' : ∀ j, j < k → signal (i + 1 + j) = false := by
        intro j hj
        have e : i + 1 + j = i + (j + 1) := by omega
        rw [e]; exact hmin (j + 1) (by omega)
      have hrec := ih (i + 1) f hsig' hmin' (by omega)
      rw [player_trace_step, if_neg (by simp [h0]), hrec]
      rw [List.range_succ_eq_map, List.map_cons, List.map_map]
      have hcomp : ((fun j => i + j) ∘ Nat.succ) = fun j => i + 1 + j := by
        funext j
        show i + Nat.succ j = i + 1 + j
        omega
      rw [hcomp]
      simp [List.append_assoc]

/-- C2 (modelled from the spec, see `player_trace`): when the resize signal
first becomes set at frame boundary `k` during playback of a non-empty frame
list, the player's event trace is exactly `k` complete renders — each
`renderStart` immediately followed by its `renderEnd` — followed by the
return event: it returns control before starting to render the next frame
and never returns in the middle of rendering a frame. -/
theorem C2_player_returns_only_at_frame_boundary (frames : List Frame)
    (hne : frames ≠ []) (signal : ℕ → Bool) (k fuel : ℕ)
    (hsig : signal k = true) (hfirst : ∀ j, j < k → signal j = false)
    (hfuel : k < fuel) :
    player_trace frames signal 0 fuel =
      (List.range k).flatMap (render_pair frames) ++ [PlayEvent.ret] := by
  have h := player_trace_signal_first frames signal k 0 fuel (by simpa using hsig)
    (by simpa using hfirst) hfuel
  simpa using h

theorem C2_witness :
    player_trace [("x", 1)] (fun n => n == 2) 0 4 =
      (List.range 2).flatMap (render_pair [("x", 1)]) ++ [PlayEvent.ret] :=
  C2_player_returns_only_at_frame_boundary [("x", 1)] (by decide) (fun n => n == 2)
    2 4 (by decide) (by decide) (by decide)

/-- C3: with the 10-entry "simple" table selected, the claim's expected
result for the opaque pixel (255, 0, 0) is the glyph at index
min(floor(76.245*10/256), 9) = 2, i.e. a colon inside the true-color escape —
and the spec-intended mapper produces exactly that — but the code's
`pixel_to_ascii_color` instead subscripts the 4-entry style dict with an int
key and raises `KeyError` (modelled as `none`). -/
theorem C3_example_crashes_in_code :
    pixel_to_ascii_color (Pixel.rgb 255 0 0) = none ∧
    pixel_to_ascii_color_intended " .:-=+*#%@" (Pixel.rgb 255 0 0) =
      some ("\x1b[38;2;255;0;0m" ++ ":" ++ "\x1b[0m") := by
  constructor <;> decide

/-- C4: for positive source dimensions and positive bounds, the dimensions
`scale_image` resizes to satisfy width ≤ max_width and height ≤ max_height —
every branch clamps both components with `min`. -/
theorem C4_scaled_image_fits_bounds (w h mW mH : ℤ) (hw : 0 < w) (hh : 0 < h)
    (hmW : 0 < mW) (hmH : 0 < mH) :
    (scale_image w h mW mH).1 ≤ mW ∧ (scale_image w h mW mH).2 ≤ mH := by
  unfold scale_image
  split
  · exact ⟨min_le_right _ _, min_le_right _ _⟩
  · exact ⟨min_le_right _ _, min_le_right _ _⟩

theorem C4_witness :
    (0:ℤ) < 100 ∧ (0:ℤ) < 50 ∧ (0:ℤ) < 40 ∧ (0:ℤ) < 19 ∧
    (scale_image 100 50 40 19).1 ≤ 40 ∧ (scale_image 100 50 40 19).2 ≤ 19 :=
  ⟨by decide, by decide, by decide, by decide,
    (C4_scaled_image_fits_bounds 100 50 40 19 (by decide) (by decide) (by decide)
      (by decide)).1,
    (C4_scaled_image_fits_bounds 100 50 40 19 (by decide) (by decide) (by decide)
      (by decide)).2⟩

/-- C5 is false on the code: at a 100×50 source in 40×19 bounds the first
pass gives targetHeight 9 < 19, the code's second pass (which refits from
`min(max_height, height)` with `int` truncation) returns width 40, while the
claim's formula (refit from the first pass's targetHeight with rounding)
gives width 38. -/
theorem C5_counterexample :
    scale_first_height 100 50 40 19 < 19 ∧
    scale_image 100 50 40 19 = (40, 9) ∧
    scale_image_claimC5 100 50 40 19 = (38, 9) ∧
    (scale_image 100 50 40 19).1 ≠ (scale_image_claimC5 100 50 40 19).1 := by
  refine ⟨by decide, by decide, by decide, by decide⟩

/-- C5 amended: whenever the first pass yields targetHeight < maxHeight, the
second pass computes targetWidth = min(trunc(min(maxHeight, height) /
(aspect*K)), maxWidth) — from the source height clamped to maxHeight, with
truncation, not from the first pass's targetHeight with rounding — and then
recomputes targetHeight = min(trunc(targetWidth * aspect * K), maxHeight)
from that new width. -/
theorem C5_amended_second_pass (w h mW mH : ℤ)
    (hfp : scale_first_height w h mW mH < mH) :
    scale_image w h mW mH =
      (min (pyint ((min mH h : ℚ) / (aspect_ratio w h * ASPECT_RATIO_FACTOR))) mW,
       min (pyint (((scale_image w h mW mH).1 : ℚ) * aspect_ratio w h * ASPECT_RATIO_FACTOR)) mH) := by
  have e : scale_image w h mW mH =
      (scale_second_width w h mW mH, scale_second_height w h mW mH) := by
    unfold scale_image
    rw [if_pos hfp]
  rw [e]
  unfold scale_second_height scale_second_width
  rfl

theorem C5_amended_witness :
    scale_first_height 100 50 40 19 < 19 ∧
    scale_image 100 50 40 19 =
      (min (pyint ((min (19:ℤ) 50 : ℚ) / (aspect_ratio 100 50 * ASPECT_RATIO_FACTOR))) 40,
       min (pyint (((scale_image 100 50 40 19).1 : ℚ) * aspect_ratio 100 50 * ASPECT_RATIO_FACTOR)) 19) :=
  ⟨by decide, C5_amended_second_pass 100 50 40 19 (by decide)⟩

/-- C6: `remove_background` keeps the image's row/column structure as RGBA;
the pixel at any position is (0,0,0,0) when its Manhattan distance to the
reference color is strictly below the threshold, and otherwise is exactly
the RGBA conversion of the input pixel (same color channels; alpha filled
with 255 when the input had none). -/
theorem C6_remove_background_pointwise (img : List (List Pixel)) (bg : ℤ × ℤ × ℤ)
    (thr : ℤ) (y x : ℕ) (row : List Pixel) (p : Pixel)
    (hy : img.get? y = some row) (hx : row.get? x = some p) :
    ∃ row2 q, (remove_background img bg thr).get? y = some row2 ∧
      row2.get? x = some q ∧
      (manhattan_distance (convert_RGBA p).1 (convert_RGBA p).2.1 (convert_RGBA p).2.2.1 bg < thr →
        q = (0, 0, 0, 0)) ∧
      (¬ manhattan_distance (convert_RGBA p).1 (convert_RGBA p).2.1 (convert_RGBA p).2.2.1 bg < thr →
        q = convert_RGBA p) := by
  rw [List.get?_eq_getElem?] at hy hx
  refine ⟨row.map (fun p => remove_background_pixel bg thr (convert_RGBA p)),
    remove_background_pixel bg thr (convert_RGBA p), ?_, ?_, ?_, ?_⟩
  · rw [List.get?_eq_getElem?]
    simp [remove_background, List.getElem?_map, hy]
  · rw [List.get?_eq_getElem?]
    simp [List.getElem?_map, hx]
  · intro hlt
    simp [remove_background_pixel, hlt]
  · intro hge
    simp [remove_background_pixel, hge]

theorem C6_witness :
    ∃ row2 q,
      (remove_background [[Pixel.rgb 255 255 255]] (255, 255, 255) 50).get? 0 = some row2 ∧
      row2.get? 0 = some q ∧
      (manhattan_distance (convert_RGBA (Pixel.rgb 255 255 255)).1
          (convert_RGBA (Pixel.rgb 255 255 255)).2.1
          (convert_RGBA (Pixel.rgb 255 255 255)).2.2.1 (255, 255, 255) < 50 →
        q = (0, 0, 0, 0)) ∧
      (¬ manhattan_distance (convert_RGBA (Pixel.rgb 255 255 255)).1
          (convert_RGBA (Pixel.rgb 255 255 255)).2.1
          (convert_RGBA (Pixel.rgb 255 255 255)).2.2.1 (255, 255, 255) < 50 →
        q = convert_RGBA (Pixel.rgb 255 255 255)) :=
  C6_remove_background_pointwise [[Pixel.rgb 255 255 255]] (255, 255, 255) 50 0 0
    [Pixel.rgb 255 255 255] (Pixel.rgb 255 255 255) (by decide) (by decide)

/-- C7: any 4-channel pixel with alpha below 50 maps to the bare single-space
string, whatever its RGB channels — the alpha test at core.py line 183 runs
before any color escape is built. -/
theorem C7_transparent_pixel_is_space (r g b a : ℤ) (ha : a < 50) :
    pixel_to_ascii_color (Pixel.rgba r g b a) = some " " := by
  simp [pixel_to_ascii_color, ha]

theorem C7_witness : pixel_to_ascii_color (Pixel.rgba 255 0 0 49) = some " " :=
  C7_transparent_pixel_is_space 255 0 0 49 (by decide)

/-- C8: every duration `gif_to_ascii_frames` stores is at least 0.06 seconds:
the stored value is `max(duration_ms / 1000, 0.06)`, with the metadata value
defaulted to `int(FRAME_DELAY * 1000)` when missing, so zero, missing and
negative metadata durations are all floored at 0.06. -/
theorem C8_frame_duration_at_least_min (metas : List (Option ℤ)) (d : ℚ)
    (hd : d ∈ gif_frame_durations metas) : 6/100 ≤ d := by
  obtain ⟨m, _, rfl⟩ := List.mem_map.mp hd
  exact le_max_right _ _

theorem C8_witness :
    (6:ℚ)/100 ∈ gif_frame_durations [some 0, none, some (-5)] ∧
    (6:ℚ)/100 ≤ 6/100 :=
  ⟨by decide,
    C8_frame_duration_at_least_min [some 0, none, some (-5)] (6/100) (by decide)⟩

/-- C9: on every reachable exit path of `play_ascii_animation` — the normal
empty-frames return, a `KeyboardInterrupt` at any point, or any other
exception ending the loop — the last terminal event is the `finally` block's
write, and that write is the show-cursor escape followed by the
reset-attributes escape (then clear-screen and cursor-home). -/
theorem C9_cleanup_on_every_exit_path (frames : List Frame) (e : ExitPath)
    (hv : e.valid frames) :
    (play_ascii_animation_events frames e).getLast? = some finally_event ∧
    finally_event = TermEvent.write ("\x1b[?25h" ++ "\x1b[0m" ++ "\x1b[2J\x1b[H") := by
  refine ⟨?_, rfl⟩
  cases e <;> simp [play_ascii_animation_events, List.append_assoc]

theorem C9_witness :
    ExitPath.valid [] ExitPath.normalReturn ∧
    (play_ascii_animation_events [] ExitPath.normalReturn).getLast? = some finally_event ∧
    finally_event = TermEvent.write ("\x1b[?25h" ++ "\x1b[0m" ++ "\x1b[2J\x1b[H") :=
  ⟨by decide,
    (C9_cleanup_on_every_exit_path [] ExitPath.normalReturn (by decide)).1,
    (C9_cleanup_on_every_exit_path [] ExitPath.normalReturn (by decide)).2⟩

/-- C10: with an empty frame list the normal-return exit path is the valid
one — the body returns at line 336 before the playback loop — and the whole
event stream is hide-cursor, screen-clear, then the terminal-restoration
write of the `finally` block: in particular no frame write occurs. -/
theorem C10_empty_frames_return_before_loop :
    ExitPath.valid [] ExitPath.normalReturn ∧
    play_ascii_animation_events [] ExitPath.normalReturn =
      [TermEvent.write "\x1b[?25l", TermEvent.systemClearScreen, finally_event] ∧
    ∀ ev ∈ play_ascii_animation_events [] ExitPath.normalReturn,
      ∀ s, ev ≠ TermEvent.frameWrite s := by
  refine ⟨rfl, by decide, ?_⟩
  intro ev hev s
  have hevs : ev ∈ [TermEvent.write "\x1b[?25l", TermEvent.systemClearScreen,
      finally_event] := by
    have e : play_ascii_animation_events [] ExitPath.normalReturn =
        [TermEvent.write "\x1b[?25l", TermEvent.systemClearScreen, finally_event] := by
      decide
    rw [e] at hev
    exact hev
  simp only [List.mem_cons, List.not_mem_nil, or_false] at hevs
  rcases hevs with rfl | rfl | rfl <;> simp [finally_event]
